import Mathlib

/-!
Verification of the controller in `src/ncm-tui/src/ui/app.rs` (the `App`
struct and its methods).  The controller is embedded shallowly: every
method becomes a pure Lean function over an explicit `App` state, and the
collaborators that live outside this file's source (the API client, the
player, the three screens, the command-line widget's text area and the
command parser) are abstracted into an `Env` record of functions.  Calls
to collaborators that matter observationally are additionally recorded in
explicit call traces (`ExtCall` for dispatch, `RenderCall` for the render
pass).
-/

namespace NcmTui

/-- Modelled from the spec: the screen enumeration `ScreenEnum` from the
`config` module (not under `src/`); variants are exactly the ones used by
`app.rs`: `Main`, `Login`, `Help`. -/
inductive ScreenEnum where
  | Main
  | Login
  | Help
deriving DecidableEq, Repr

/-- Modelled from the spec: the mode enumeration `AppMode` from the
`config` module (not under `src/`): `Normal` and `CommandEntry`. -/
inductive AppMode where
  | Normal
  | CommandEntry
deriving DecidableEq, Repr

/-- Modelled from the spec: the `Command` enumeration from the `config`
module (not under `src/`); the variant list follows the spec's data model
section and the uses in `app.rs`. -/
inductive Command where
  | Up
  | Down
  | NextPanel
  | PrevPanel
  | TogglePlay
  | PrevTrack
  | NextTrack
  | Play
  | Esc
  | ToggleRepeat
  | ToggleShuffle
  | GotoTop
  | GotoBottom
  | GotoScreen (s : ScreenEnum)
  | NewPlaylist (name : Option String)
  | PlaylistAdd
  | SelectPlaylist
  | Quit
  | EnterCommand
  | Logout
  | Nop
deriving DecidableEq, Repr

/-- Embedding of the crossterm `KeyCode` variants relevant to
`get_command_from_key`, plus enough further variants to stand for the
unmapped keys (`Backspace`, `Delete`, ... fall through to the `Nop` arm). -/
inductive KeyCode where
  | Char (c : Char)
  | F (n : Nat)
  | Up
  | Down
  | Left
  | Right
  | Tab
  | BackTab
  | Enter
  | Esc
  | Backspace
  | Delete
  | Home
  | End
  | PageUp
  | PageDown
  | Insert
  | Null
deriving DecidableEq, Repr

/-- Embedding of the crossterm `KeyEventKind` variants. -/
inductive KeyEventKind where
  | Press
  | Repeat
  | Release
deriving DecidableEq, Repr

/-- Embedding of a crossterm key event: kind plus key code. -/
structure KeyEvent where
  kind : KeyEventKind
  code : KeyCode
deriving DecidableEq, Repr

/-- Modelled from the spec: the command-line widget (`ui::widget::CommandLine`,
not under `src/`).  It holds the in-progress text buffer, the prompt glyph and
the cursor visibility; `reset()` clears the buffer, `set_prompt` sets the
glyph, `insert_str` inserts text into the (empty or non-empty) buffer,
`get_contents` reads the buffer. -/
structure CommandLine where
  buffer : String
  prompt : String
  cursor_visible : Bool
deriving DecidableEq, Repr

/-- Modelled from the spec: `CommandLine::new` starts with an empty buffer. -/
def CommandLine.new : CommandLine :=
  { buffer := "", prompt := "", cursor_visible := false }

/-- Modelled from the spec: `reset()` clears the buffer (and prompt). -/
def CommandLine.reset (cl : CommandLine) : CommandLine :=
  { cl with buffer := "", prompt := "" }

/-- Modelled from the spec: `set_prompt` sets the prompt glyph. -/
def CommandLine.set_prompt (cl : CommandLine) (s : String) : CommandLine :=
  { cl with prompt := s }

/-- Modelled from the spec: `textarea.insert_str` appends the text into the
buffer at the cursor (which sits at the end of the buffer). -/
def CommandLine.insert_str (cl : CommandLine) (s : String) : CommandLine :=
  { cl with buffer := cl.buffer ++ s }

/-- Modelled from the spec: `get_contents` returns the buffered text. -/
def CommandLine.get_contents (cl : CommandLine) : String :=
  cl.buffer

/-- Modelled from the spec: `set_cursor_visibility`. -/
def CommandLine.set_cursor_visibility (cl : CommandLine) (b : Bool) : CommandLine :=
  { cl with cursor_visible := b }

/-- Modelled from the spec: the `MainScreen` sub-model (not under `src/`);
the controller constructs it fresh (`MainScreen::new`) and can install the
favorite playlist via `update_playlist_model`; all further internal state is
opaque (the `state` field). -/
structure MainScreen where
  playlist_model : Option (String × List String)
  state : Nat
deriving DecidableEq, Repr

/-- Modelled from the spec: `MainScreen::new` has no playlist installed. -/
def MainScreen.new : MainScreen :=
  { playlist_model := none, state := 0 }

/-- Modelled from the spec: `update_playlist_model` installs name and songs. -/
def MainScreen.update_playlist_model (s : MainScreen) (name : String)
    (playlist : List String) : MainScreen :=
  { s with playlist_model := some (name, playlist) }

/-- Modelled from the spec: the `LoginScreen` sub-model (not under `src/`),
opaque to the controller. -/
structure LoginScreen where
  state : Nat
deriving DecidableEq, Repr

/-- Modelled from the spec: `LoginScreen::new`. -/
def LoginScreen.new : LoginScreen :=
  { state := 0 }

/-- Modelled from the spec: the `HelpScreen` sub-model (not under `src/`),
a static screen with no controller-visible state. -/
structure HelpScreen where
  unit : Unit
deriving DecidableEq, Repr

/-- Modelled from the spec: `HelpScreen::new`. -/
def HelpScreen.new : HelpScreen :=
  { unit := () }

/-- The controller state: the model fields of `App` in `app.rs`
(`current_screen`, `current_mode`, `need_re_update_view`, `command_queue`)
together with the owned view collaborators that the controller replaces or
mutates (`main_screen`, `login_screen`, `help_screen`, `command_line`) and
the playback-bar label.  The terminal handle and style are out of scope. -/
structure App where
  current_screen : ScreenEnum
  current_mode : AppMode
  need_re_update_view : Bool
  command_queue : List Command
  main_screen : MainScreen
  login_screen : LoginScreen
  help_screen : HelpScreen
  command_line : CommandLine
  playback_label : String
deriving DecidableEq, Repr

/-- The environment of collaborator behaviour for one iteration: the API
client singleton (`is_login`, `user_favorite_songlist`), the player singleton
(`position`, `duration`, in whole seconds), the screens' async methods
(`update_model`, `handle_event`, each returning a redraw flag and the
screen's next internal state, or an error), the command grammar
(`Command::parse`) and the text-area editing function of the tui-textarea
crate. -/
structure Env where
  is_login : Bool
  user_favorite_songlist : Option (String × List String)
  player_position : Option Nat
  player_duration : Option Nat
  mainUpdate : MainScreen → Except String (Bool × MainScreen)
  loginUpdate : LoginScreen → Except String (Bool × LoginScreen)
  mainHandle : Command → MainScreen → Except String (Bool × MainScreen)
  loginHandle : Command → LoginScreen → Except String (Bool × LoginScreen)
  helpHandle : Command → Except String Bool
  parse : String → Except String Command
  textarea_input : KeyEvent → String → String

/-- External calls the dispatcher makes, recorded as a trace. -/
inductive ExtCall where
  | apiLogout
  | screenHandleEvent (s : ScreenEnum) (c : Command)
deriving DecidableEq, Repr

/-- Collaborator calls the render pass makes, recorded as a trace. -/
inductive RenderCall where
  | screenUpdateView (s : ScreenEnum)
  | commandLineUpdateView
  | screenDraw (s : ScreenEnum)
  | gaugeDraw
  | commandLineDraw
deriving DecidableEq, Repr

/-- `App::new` (lines 41-62): initial controller state. -/
def App.new : App :=
  { current_screen := ScreenEnum.Main
    current_mode := AppMode.Normal
    need_re_update_view := true
    command_queue := []
    main_screen := MainScreen.new
    login_screen := LoginScreen.new
    help_screen := HelpScreen.new
    command_line := CommandLine.new
    playback_label := "--:--/--:--" }

/-- `App::show_prompt` (lines 303-305): insert the text into the command
line's text area. -/
def show_prompt (text : String) (app : App) : App :=
  { app with command_line := app.command_line.insert_str text }

/-- `App::back_to_normal_mode` (lines 295-297). -/
def back_to_normal_mode (app : App) : App :=
  { app with current_mode := AppMode.Normal }

/-- `App::switch_to_command_entry_mode` (lines 299-301). -/
def switch_to_command_entry_mode (app : App) : App :=
  { app with current_mode := AppMode.CommandEntry }

/-- `App::switch_screen` (lines 320-328): going to `Login` while the API
client reports a logged-in session only shows a prompt; otherwise the
transition happens and forces a redraw. -/
def switch_screen (env : Env) (to_screen : ScreenEnum) (app : App) : App :=
  if to_screen = ScreenEnum.Login ∧ env.is_login = true then
    show_prompt "you have to logout from current account first!" app
  else
    { app with need_re_update_view := true, current_screen := to_screen }

/-- The key-to-command table of `App::get_command_from_key`
(lines 246-275), including the `Nop` fallthrough arm.  The Rust `match` on
`KeyCode` patterns (whose literal patterns are disjoint equality tests) is
embedded as the equivalent equality-dispatch chain, arms in source order. -/
def keyToCommand (key_code : KeyCode) : Command :=
  if key_code = KeyCode.Char 'k' then Command.Up
  else if key_code = KeyCode.Up then Command.Up
  else if key_code = KeyCode.Char 'j' then Command.Down
  else if key_code = KeyCode.Down then Command.Down
  else if key_code = KeyCode.Char ' ' then Command.TogglePlay
  else if key_code = KeyCode.Char ',' then Command.PrevTrack
  else if key_code = KeyCode.Char '.' then Command.NextTrack
  else if key_code = KeyCode.Enter then Command.Play
  else if key_code = KeyCode.Esc then Command.Esc
  else if key_code = KeyCode.Char 'r' then Command.ToggleRepeat
  else if key_code = KeyCode.Char 's' then Command.ToggleShuffle
  else if key_code = KeyCode.Char 'g' then Command.GotoTop
  else if key_code = KeyCode.Char 'G' then Command.GotoBottom
  else if key_code = KeyCode.Right then Command.NextPanel
  else if key_code = KeyCode.Tab then Command.NextPanel
  else if key_code = KeyCode.Left then Command.PrevPanel
  else if key_code = KeyCode.BackTab then Command.PrevPanel
  else if key_code = KeyCode.Char '1' then Command.GotoScreen ScreenEnum.Main
  else if key_code = KeyCode.Char '0' then Command.GotoScreen ScreenEnum.Help
  else if key_code = KeyCode.F 1 then Command.GotoScreen ScreenEnum.Help
  else if key_code = KeyCode.Char 'n' then Command.NewPlaylist none
  else if key_code = KeyCode.Char 'p' then Command.PlaylistAdd
  else if key_code = KeyCode.Char 'x' then Command.SelectPlaylist
  else if key_code = KeyCode.Char 'q' then Command.Quit
  else if key_code = KeyCode.Char ':' then Command.EnterCommand
  else Command.Nop

/-- `App::get_command_from_key` (lines 245-278): translate the key and push
the command onto the back of the queue. -/
def get_command_from_key (key_code : KeyCode) (app : App) : App :=
  { app with command_queue := app.command_queue ++ [keyToCommand key_code] }

/-- `App::parse_command` (lines 280-293): read the buffer, clear it, then
either enqueue the parsed command or show the error text as a prompt. -/
def parse_command (env : Env) (app : App) : App :=
  let input_cmd := app.command_line.get_contents
  let app := { app with command_line := app.command_line.reset }
  match env.parse input_cmd with
  | Except.ok cmd => { app with command_queue := app.command_queue ++ [cmd] }
  | Except.error e => show_prompt e app

/-- The input-translation phase of `App::handle_event` (lines 119-139):
a non-key event (`none`) is ignored, and only Press/Repeat kinds are
considered; Normal mode translates via the keymap, CommandEntry mode commits
on Enter, cancels on Esc, and otherwise feeds the key to the text area. -/
def handle_key (env : Env) (ev : Option KeyEvent) (app : App) : App :=
  match ev with
  | none => app
  | some key_event =>
    if key_event.kind = KeyEventKind.Press ∨ key_event.kind = KeyEventKind.Repeat then
      match app.current_mode, key_event.code with
      | AppMode.Normal, _ => get_command_from_key key_event.code app
      | AppMode.CommandEntry, KeyCode.Enter =>
          back_to_normal_mode (parse_command env app)
      | AppMode.CommandEntry, KeyCode.Esc =>
          back_to_normal_mode { app with command_line := app.command_line.reset }
      | AppMode.CommandEntry, _ =>
          { app with
            command_line :=
              { app.command_line with
                buffer := env.textarea_input key_event app.command_line.buffer } }
    else app

/-- `App::init_after_login` (lines 65-79): rebuild the main screen, install
the favorite playlist when present, and switch to the Main screen. -/
def init_after_login (env : Env) (app : App) : App :=
  let ms := MainScreen.new
  let ms :=
    match env.user_favorite_songlist with
    | some (playlist_name, playlist) => ms.update_playlist_model playlist_name playlist
    | none => ms
  switch_screen env ScreenEnum.Main { app with main_screen := ms }

/-- The body of the forwarded-commands arm of `App::handle_event`
(lines 160-175): pass the command to the active screen's `handle_event`
and OR its redraw flag into `need_re_update_view`. -/
def forward_to_screen (env : Env) (cmd : Command) (app : App) :
    Except String (Bool × App × List ExtCall) :=
  match app.current_screen with
  | ScreenEnum.Main => do
      let (b, ms) ← env.mainHandle cmd app.main_screen
      Except.ok (true,
        { app with main_screen := ms,
                   need_re_update_view := app.need_re_update_view || b },
        [ExtCall.screenHandleEvent ScreenEnum.Main cmd])
  | ScreenEnum.Login => do
      let (b, ls) ← env.loginHandle cmd app.login_screen
      Except.ok (true,
        { app with login_screen := ls,
                   need_re_update_view := app.need_re_update_view || b },
        [ExtCall.screenHandleEvent ScreenEnum.Login cmd])
  | ScreenEnum.Help => do
      let b ← env.helpHandle cmd
      Except.ok (true,
        { app with need_re_update_view := app.need_re_update_view || b },
        [ExtCall.screenHandleEvent ScreenEnum.Help cmd])

/-- The command-dispatch phase of `App::handle_event` (lines 142-180):
pop the front command (if any) and execute it; returns the continue flag,
the next state and the trace of external calls made. -/
def execute_command (env : Env) (app : App) : Except String (Bool × App × List ExtCall) :=
  match app.command_queue with
  | [] => Except.ok (true, app, [])
  | cmd :: rest =>
    let app := { app with command_queue := rest }
    match cmd with
    | Command.Quit => Except.ok (false, app, [])
    | Command.GotoScreen to_screen =>
        Except.ok (true, switch_screen env to_screen app, [])
    | Command.EnterCommand =>
        let app := switch_to_command_entry_mode app
        let app := { app with command_line := (app.command_line.reset).set_prompt ":" }
        Except.ok (true, app, [])
    | Command.Logout =>
        Except.ok (true, { app with login_screen := LoginScreen.new },
          [ExtCall.apiLogout])
    | Command.Down | Command.Up | Command.NextPanel | Command.PrevPanel
    | Command.Esc | Command.Play => forward_to_screen env cmd app
    | _ => Except.ok (true, app, [])

/-- `App::handle_event` (lines 117-181): input translation followed by the
dispatch of at most one queued command. -/
def handle_event (env : Env) (ev : Option KeyEvent) (app : App) :
    Except String (Bool × App × List ExtCall) :=
  execute_command env (handle_key env ev app)

/-- Two-digit zero padding, as used for each field of the playback label. -/
def pad2 (n : Nat) : String :=
  if n < 10 then "0" ++ toString n else toString n

/-- The playback label `MM:SS/MM:SS` built in `App::update_model`
(lines 104-110) from position and duration in seconds. -/
def fmtClock (pos dur : Nat) : String :=
  pad2 (pos / 60) ++ ":" ++ pad2 (pos % 60) ++ "/" ++ pad2 (dur / 60) ++ ":" ++ pad2 (dur % 60)

/-- The playback-bar part of `App::update_model` (lines 100-112): the label
is recomputed only when both position and duration are available. -/
def playbackUpdate (env : Env) (app : App) : App :=
  match env.player_position, env.player_duration with
  | some p, some d => { app with playback_label := fmtClock p d }
  | _, _ => app

/-- `App::update_login_model` (lines 307-318): run the login screen's own
update; if the API client then reports a logged-in session, run
`init_after_login` and report redraw needed unconditionally. -/
def update_login_model (env : Env) (app : App) : Except String (Bool × App) := do
  let (need_redraw, ls) ← env.loginUpdate app.login_screen
  let app := { app with login_screen := ls }
  if env.is_login = true then
    Except.ok (true, init_after_login env app)
  else
    Except.ok (need_redraw, app)

/-- `App::update_model` (lines 92-115): recompute the dirty flag from the
active screen, then refresh the playback label. -/
def update_model (env : Env) (app : App) : Except String App := do
  let (b, app) ←
    match app.current_screen with
    | ScreenEnum.Help => Except.ok (false, app)
    | ScreenEnum.Login => update_login_model env app
    | ScreenEnum.Main => do
        let (b, ms) ← env.mainUpdate app.main_screen
        Except.ok (b, { app with main_screen := ms })
  let app := { app with need_re_update_view := b }
  Except.ok (playbackUpdate env app)

/-- `App::update_view` (lines 183-200): recompute the active screen's view
only when the dirty flag is set (the Help arm does nothing), then set the
command-line cursor visibility from the mode and recompute the command-line
view.  Returns the state and the trace of view-recomputation calls. -/
def update_view (app : App) : App × List RenderCall :=
  let screen_calls :=
    if app.need_re_update_view = true then
      match app.current_screen with
      | ScreenEnum.Help => []
      | ScreenEnum.Login => [RenderCall.screenUpdateView ScreenEnum.Login]
      | ScreenEnum.Main => [RenderCall.screenUpdateView ScreenEnum.Main]
    else []
  let show_cursor :=
    match app.current_mode with
    | AppMode.Normal => false
    | AppMode.CommandEntry => true
  let app := { app with command_line := app.command_line.set_cursor_visibility show_cursor }
  (app, screen_calls ++ [RenderCall.commandLineUpdateView])

/-- `App::draw` (lines 202-240): run `update_view`, then render the active
screen, the playback gauge and the command line unconditionally. -/
def draw (app : App) : App × List RenderCall :=
  let (app, view_calls) := update_view app
  (app, view_calls ++
    [RenderCall.screenDraw app.current_screen, RenderCall.gaugeDraw,
     RenderCall.commandLineDraw])

/-- The iterated event loop with no further key input: run `handle_event`
up to `n` times, stopping early when it signals termination or fails. -/
def runNoInput (env : Env) : Nat → App → Except String App
  | 0, app => Except.ok app
  | n + 1, app =>
    match handle_event env none app with
    | Except.ok (true, app', _) => runNoInput env n app'
    | Except.ok (false, app', _) => Except.ok app'
    | Except.error e => Except.error e

/-- The event loop run over a given list of key events, one per iteration,
stopping early when it signals termination or fails. -/
def runKeys (env : Env) : List KeyEvent → App → Except String App
  | [], app => Except.ok app
  | ke :: ks, app =>
    match handle_event env (some ke) app with
    | Except.ok (true, app', _) => runKeys env ks app'
    | Except.ok (false, app', _) => Except.ok app'
    | Except.error e => Except.error e

/-- An environment whose screen event handlers never fail. -/
def EnvOk (env : Env) : Prop :=
  (∀ c ms, ∃ r, env.mainHandle c ms = Except.ok r) ∧
  (∀ c ls, ∃ r, env.loginHandle c ls = Except.ok r) ∧
  (∀ c, ∃ r, env.helpHandle c = Except.ok r)

/-- The redraw flag the active screen's `handle_event` reports for a
forwarded command (projection of the collaborator call made by
`forward_to_screen`). -/
def screenHandleBool (env : Env) (app : App) (cmd : Command) : Except String Bool :=
  match app.current_screen with
  | ScreenEnum.Main => (env.mainHandle cmd app.main_screen).map Prod.fst
  | ScreenEnum.Login => (env.loginHandle cmd app.login_screen).map Prod.fst
  | ScreenEnum.Help => env.helpHandle cmd

/-- The key codes mapped to a command other than `Nop` in Normal mode. -/
def normalKeymapKeys : List KeyCode :=
  [KeyCode.Char 'k', KeyCode.Up, KeyCode.Char 'j', KeyCode.Down, KeyCode.Char ' ',
   KeyCode.Char ',', KeyCode.Char '.', KeyCode.Enter, KeyCode.Esc, KeyCode.Char 'r',
   KeyCode.Char 's', KeyCode.Char 'g', KeyCode.Char 'G', KeyCode.Right, KeyCode.Tab,
   KeyCode.Left, KeyCode.BackTab, KeyCode.Char '1', KeyCode.Char '0', KeyCode.F 1,
   KeyCode.Char 'n', KeyCode.Char 'p', KeyCode.Char 'x', KeyCode.Char 'q', KeyCode.Char ':']

/-- A concrete environment used to evaluate the theorems on closed inputs:
logged out, no playlist, no playback, all screen calls succeed without
requesting a redraw, the parser rejects everything, and the text area
appends typed characters. -/
def defaultEnv : Env :=
  { is_login := false
    user_favorite_songlist := none
    player_position := none
    player_duration := none
    mainUpdate := fun ms => Except.ok (false, ms)
    loginUpdate := fun ls => Except.ok (false, ls)
    mainHandle := fun _ ms => Except.ok (false, ms)
    loginHandle := fun _ ls => Except.ok (false, ls)
    helpHandle := fun _ => Except.ok false
    parse := fun _ => Except.error "unknown command"
    textarea_input := fun ke s =>
      match ke.code with
      | KeyCode.Char c => s.push c
      | _ => s }

/-- C1: dispatching `GotoScreen(Login)` while the API client reports a
logged-in session leaves `current_screen` and the dirty flag unchanged and
inserts a prompt message into the command line; while logged out it sets
`current_screen := Login` and forces the dirty flag to `true`. -/
theorem claim_C1 (env : Env) (app : App) (rest : List Command)
    (hq : app.command_queue = Command.GotoScreen ScreenEnum.Login :: rest) :
    (env.is_login = true →
      execute_command env app = Except.ok (true,
        { app with
          command_queue := rest,
          command_line := app.command_line.insert_str
            "you have to logout from current account first!" }, [])) ∧
    (env.is_login = false →
      execute_command env app = Except.ok (true,
        { app with
          command_queue := rest,
          need_re_update_view := true,
          current_screen := ScreenEnum.Login }, [])) := by
  constructor <;> intro h <;>
    simp [execute_command, hq, switch_screen, show_prompt, h]

/-- Witness for C1 at a concrete logged-in environment and a concrete
queue holding only `GotoScreen(Login)`. -/
theorem claim_C1_witness :
    ({ App.new with command_queue := [Command.GotoScreen ScreenEnum.Login] } : App).command_queue
        = Command.GotoScreen ScreenEnum.Login :: [] ∧
    execute_command { defaultEnv with is_login := true }
        { App.new with command_queue := [Command.GotoScreen ScreenEnum.Login] } =
      Except.ok (true,
        { App.new with
          command_queue := ([] : List Command),
          command_line := App.new.command_line.insert_str
            "you have to logout from current account first!" }, []) :=
  ⟨rfl,
    (claim_C1 { defaultEnv with is_login := true }
      { App.new with command_queue := [Command.GotoScreen ScreenEnum.Login] } [] rfl).1 rfl⟩

/-- C10: dispatching `Logout` replaces only the login-screen sub-model with
a fresh one and invokes the API client's logout; screen, mode, dirty flag
and the rest of the queue are untouched. -/
theorem claim_C10 (env : Env) (app : App) (rest : List Command)
    (hq : app.command_queue = Command.Logout :: rest) :
    execute_command env app =
      Except.ok (true,
        { app with command_queue := rest, login_screen := LoginScreen.new },
        [ExtCall.apiLogout]) := by
  simp [execute_command, hq]

/-- Witness for C10 at a concrete state with `Logout` followed by `Play`
in the queue. -/
theorem claim_C10_witness :
    ({ App.new with command_queue := [Command.Logout, Command.Play] } : App).command_queue
        = Command.Logout :: [Command.Play] ∧
    execute_command defaultEnv
        { App.new with command_queue := [Command.Logout, Command.Play] } =
      Except.ok (true,
        { App.new with command_queue := [Command.Play], login_screen := LoginScreen.new },
        [ExtCall.apiLogout]) :=
  ⟨rfl,
    claim_C10 defaultEnv
      { App.new with command_queue := [Command.Logout, Command.Play] } [Command.Play] rfl⟩

/-- C8: committing command-line text clears the buffer before parsing; a
successful parse enqueues exactly that command and leaves the buffer empty,
and a failed parse enqueues nothing and leaves the error message (not the
original input) in the buffer. -/
theorem claim_C8 (env : Env) (app : App) :
    (∀ cmd, env.parse app.command_line.get_contents = Except.ok cmd →
      parse_command env app =
        { app with
          command_line := app.command_line.reset,
          command_queue := app.command_queue ++ [cmd] } ∧
      (parse_command env app).command_line.buffer = "") ∧
    (∀ e, env.parse app.command_line.get_contents = Except.error e →
      parse_command env app =
        { app with command_line := (app.command_line.reset).insert_str e } ∧
      (parse_command env app).command_queue = app.command_queue ∧
      (parse_command env app).command_line.buffer = e) := by
  constructor <;> intro x hx <;>
    simp only [CommandLine.get_contents] at hx <;>
    simp [parse_command, show_prompt, hx, CommandLine.reset, CommandLine.insert_str,
      CommandLine.get_contents]

/-- Witness for C8 at a concrete environment whose parser rejects the
buffered text with a fixed error message. -/
theorem claim_C8_witness :
    defaultEnv.parse
        ({ App.new with command_line := { App.new.command_line with buffer := ":oops" } } : App).command_line.get_contents
      = Except.error "unknown command" ∧
    (parse_command defaultEnv
        { App.new with command_line := { App.new.command_line with buffer := ":oops" } }).command_queue
      = ([] : List Command) ∧
    (parse_command defaultEnv
        { App.new with command_line := { App.new.command_line with buffer := ":oops" } }).command_line.buffer
      = "unknown command" := by
  refine ⟨rfl, ?_, ?_⟩
  · exact ((claim_C8 defaultEnv
      { App.new with command_line := { App.new.command_line with buffer := ":oops" } }).2
      "unknown command" rfl).2.1
  · exact ((claim_C8 defaultEnv
      { App.new with command_line := { App.new.command_line with buffer := ":oops" } }).2
      "unknown command" rfl).2.2

/-- Helper: on a forwarded command the new dirty flag is the old one OR-ed
with the redraw flag the active screen's handler reports. -/
lemma forward_need (env : Env) (app : App) (cmd : Command) (b : Bool)
    (hb : screenHandleBool env app cmd = Except.ok b) :
    (forward_to_screen env cmd app).map (fun r => r.2.1.need_re_update_view) =
      Except.ok (app.need_re_update_view || b) := by
  unfold forward_to_screen
  unfold screenHandleBool at hb
  cases hs : app.current_screen <;> rw [hs] at hb
  · cases henv : env.mainHandle cmd app.main_screen with
    | ok r =>
        obtain ⟨b', ms⟩ := r
        rw [henv] at hb
        simp [Except.map] at hb
        subst hb
        rfl
    | error e => rw [henv] at hb; simp [Except.map] at hb
  · cases henv : env.loginHandle cmd app.login_screen with
    | ok r =>
        obtain ⟨b', ls⟩ := r
        rw [henv] at hb
        simp [Except.map] at hb
        subst hb
        rfl
    | error e => rw [henv] at hb; simp [Except.map] at hb
  · have hb' : env.helpHandle cmd = Except.ok b := hb
    rw [hb']
    rfl

/-- C6: for each forwarded command, the dirty flag after the dispatch is
the old flag OR-ed with the active screen handler's boolean result; in
particular a dirty flag already set is never cleared by forwarding. -/
theorem claim_C6 (env : Env) (app : App) (cmd : Command) (rest : List Command) (b : Bool)
    (hq : app.command_queue = cmd :: rest)
    (hc : cmd ∈ [Command.Down, Command.Up, Command.NextPanel, Command.PrevPanel,
      Command.Esc, Command.Play])
    (hb : screenHandleBool env app cmd = Except.ok b) :
    (execute_command env app).map (fun r => r.2.1.need_re_update_view) =
      Except.ok (app.need_re_update_view || b) ∧
    (app.need_re_update_view = true →
      (execute_command env app).map (fun r => r.2.1.need_re_update_view) =
        Except.ok true) := by
  have hb' : screenHandleBool env { app with command_queue := rest } cmd = Except.ok b := hb
  have key : (execute_command env app).map (fun r => r.2.1.need_re_update_view) =
      Except.ok (app.need_re_update_view || b) := by
    simp only [List.mem_cons, List.not_mem_nil, or_false] at hc
    rcases hc with rfl | rfl | rfl | rfl | rfl | rfl <;>
      simpa [execute_command, hq] using
        forward_need env { app with command_queue := rest } _ b hb'
  refine ⟨key, fun hd => ?_⟩
  rw [key, hd]
  simp

/-- Witness for C6 at a concrete state on the Main screen with `Down` at
the front of the queue and a handler reporting no redraw. -/
theorem claim_C6_witness :
    ({ App.new with command_queue := [Command.Down] } : App).command_queue
        = Command.Down :: [] ∧
    Command.Down ∈ [Command.Down, Command.Up, Command.NextPanel, Command.PrevPanel,
      Command.Esc, Command.Play] ∧
    screenHandleBool defaultEnv { App.new with command_queue := [Command.Down] }
        Command.Down = Except.ok false ∧
    (execute_command defaultEnv { App.new with command_queue := [Command.Down] }).map
        (fun r => r.2.1.need_re_update_view) =
      Except.ok (({ App.new with command_queue := [Command.Down] } : App).need_re_update_view
        || false) := by
  refine ⟨rfl, by decide, rfl, ?_⟩
  exact (claim_C6 defaultEnv { App.new with command_queue := [Command.Down] }
    Command.Down [] false rfl (by decide) rfl).1

set_option maxHeartbeats 2000000 in
/-- C4: in Normal mode every press/repeat key appends exactly one command
to the back of the queue according to the fixed case-sensitive keymap,
every key outside the table appends exactly one `Nop`, and the translation
itself changes no other controller state. -/
theorem claim_C4 :
    (keyToCommand (KeyCode.Char 'k') = Command.Up ∧
     keyToCommand KeyCode.Up = Command.Up ∧
     keyToCommand (KeyCode.Char 'j') = Command.Down ∧
     keyToCommand KeyCode.Down = Command.Down ∧
     keyToCommand KeyCode.Right = Command.NextPanel ∧
     keyToCommand KeyCode.Tab = Command.NextPanel ∧
     keyToCommand KeyCode.Left = Command.PrevPanel ∧
     keyToCommand KeyCode.BackTab = Command.PrevPanel ∧
     keyToCommand (KeyCode.Char ' ') = Command.TogglePlay ∧
     keyToCommand (KeyCode.Char ',') = Command.PrevTrack ∧
     keyToCommand (KeyCode.Char '.') = Command.NextTrack ∧
     keyToCommand KeyCode.Enter = Command.Play ∧
     keyToCommand KeyCode.Esc = Command.Esc ∧
     keyToCommand (KeyCode.Char 'r') = Command.ToggleRepeat ∧
     keyToCommand (KeyCode.Char 's') = Command.ToggleShuffle ∧
     keyToCommand (KeyCode.Char 'g') = Command.GotoTop ∧
     keyToCommand (KeyCode.Char 'G') = Command.GotoBottom ∧
     keyToCommand (KeyCode.Char '1') = Command.GotoScreen ScreenEnum.Main ∧
     keyToCommand (KeyCode.Char '0') = Command.GotoScreen ScreenEnum.Help ∧
     keyToCommand (KeyCode.F 1) = Command.GotoScreen ScreenEnum.Help ∧
     keyToCommand (KeyCode.Char 'n') = Command.NewPlaylist none ∧
     keyToCommand (KeyCode.Char 'p') = Command.PlaylistAdd ∧
     keyToCommand (KeyCode.Char 'x') = Command.SelectPlaylist ∧
     keyToCommand (KeyCode.Char 'q') = Command.Quit ∧
     keyToCommand (KeyCode.Char ':') = Command.EnterCommand) ∧
    (∀ k : KeyCode, k ∉ normalKeymapKeys → keyToCommand k = Command.Nop) ∧
    (∀ (env : Env) (ke : KeyEvent) (app : App),
      app.current_mode = AppMode.Normal →
      (ke.kind = KeyEventKind.Press ∨ ke.kind = KeyEventKind.Repeat) →
      handle_key env (some ke) app =
        { app with command_queue := app.command_queue ++ [keyToCommand ke.code] }) := by
  refine ⟨by decide, ?_, ?_⟩
  · intro k hk
    simp only [normalKeymapKeys, List.mem_cons, List.not_mem_nil, or_false, not_or] at hk
    obtain ⟨h1, h2, h3, h4, h5, h6, h7, h8, h9, h10, h11, h12, h13, h14, h15, h16, h17, h18,
      h19, h20, h21, h22, h23, h24, h25⟩ := hk
    simp only [keyToCommand, if_neg h1, if_neg h2, if_neg h3, if_neg h4, if_neg h5, if_neg h6,
      if_neg h7, if_neg h8, if_neg h9, if_neg h10, if_neg h11, if_neg h12, if_neg h13,
      if_neg h14, if_neg h15, if_neg h16, if_neg h17, if_neg h18, if_neg h19, if_neg h20,
      if_neg h21, if_neg h22, if_neg h23, if_neg h24, if_neg h25]
  · intro env ke app hmode hkind
    rcases hkind with h | h <;>
      simp [handle_key, get_command_from_key, hmode, h]

/-- Witness for C4: a concrete unmapped key yields `Nop`, and a concrete
press of the quit key in Normal mode appends exactly `Quit`. -/
theorem claim_C4_witness :
    (KeyCode.Home ∉ normalKeymapKeys ∧ keyToCommand KeyCode.Home = Command.Nop) ∧
    (App.new.current_mode = AppMode.Normal ∧
     handle_key defaultEnv (some { kind := KeyEventKind.Press, code := KeyCode.Char 'q' })
         App.new =
       { App.new with
         command_queue := App.new.command_queue ++ [keyToCommand (KeyCode.Char 'q')] }) :=
  ⟨⟨by decide, claim_C4.2.1 KeyCode.Home (by decide)⟩,
   ⟨rfl, claim_C4.2.2 defaultEnv
     { kind := KeyEventKind.Press, code := KeyCode.Char 'q' } App.new rfl (Or.inl rfl)⟩⟩

/-- Helper: a successful result of `forward_to_screen` always carries the
continue flag `true`. -/
lemma forward_ok_true (env : Env) (cmd : Command) (app : App) {b : Bool} {app' : App}
    {calls : List ExtCall}
    (h : forward_to_screen env cmd app = Except.ok (b, app', calls)) : b = true := by
  unfold forward_to_screen at h
  cases hs : app.current_screen <;> rw [hs] at h
  · cases henv : env.mainHandle cmd app.main_screen with
    | ok r =>
        obtain ⟨b1, ms⟩ := r
        rw [henv] at h
        simp [Except.instMonad, Except.bind] at h
        exact h.1
    | error e =>
        rw [henv] at h
        simp [Except.instMonad, Except.bind] at h
  · cases henv : env.loginHandle cmd app.login_screen with
    | ok r =>
        obtain ⟨b1, ls⟩ := r
        rw [henv] at h
        simp [Except.instMonad, Except.bind] at h
        exact h.1
    | error e =>
        rw [henv] at h
        simp [Except.instMonad, Except.bind] at h
  · cases henv : env.helpHandle cmd with
    | ok r =>
        rw [henv] at h
        simp [Except.instMonad, Except.bind] at h
        exact h.1
    | error e =>
        rw [henv] at h
        simp [Except.instMonad, Except.bind] at h

/-- C2: when the command dequeued this iteration is `Quit`, `handle_event`
returns the terminate signal `Ok(false)` with no dispatch action performed
(empty call trace) and the commands queued behind `Quit` left unexecuted in
the queue; any other dequeued command yields `Ok(true)` whenever the call
returns successfully at all. -/
theorem claim_C2 (env : Env) (ev : Option KeyEvent) (app : App) :
    (∀ rest, (handle_key env ev app).command_queue = Command.Quit :: rest →
      handle_event env ev app =
        Except.ok (false, { handle_key env ev app with command_queue := rest }, [])) ∧
    (∀ cmd rest, (handle_key env ev app).command_queue = cmd :: rest →
      cmd ≠ Command.Quit →
      ∀ b app' calls, handle_event env ev app = Except.ok (b, app', calls) → b = true) := by
  constructor
  · intro rest hq
    unfold handle_event
    generalize handle_key env ev app = a at hq ⊢
    simp [execute_command, hq]
  · intro cmd rest hq hne b app' calls hrun
    unfold handle_event at hrun
    generalize handle_key env ev app = a at hq hrun
    cases cmd <;> simp [execute_command, hq] at hrun <;>
      first
        | exact hrun.1
        | exact hrun.1.symm
        | exact forward_ok_true env _ { a with command_queue := rest } hrun
        | exact absurd rfl hne

/-- Witness for C2 at a concrete queue `[Quit, Play]` with no input event:
the tick reports `false` and leaves `Play` unexecuted in the queue. -/
theorem claim_C2_witness :
    (handle_key defaultEnv none
        { App.new with command_queue := [Command.Quit, Command.Play] }).command_queue
      = Command.Quit :: [Command.Play] ∧
    handle_event defaultEnv none
        { App.new with command_queue := [Command.Quit, Command.Play] } =
      Except.ok (false,
        { handle_key defaultEnv none
            { App.new with command_queue := [Command.Quit, Command.Play] } with
          command_queue := [Command.Play] }, []) :=
  ⟨rfl,
    (claim_C2 defaultEnv none
      { App.new with command_queue := [Command.Quit, Command.Play] }).1 [Command.Play] rfl⟩

/-- Helper: `playbackUpdate` touches only the playback label. -/
lemma playbackUpdate_fields (env : Env) (a : App) :
    (playbackUpdate env a).current_screen = a.current_screen ∧
    (playbackUpdate env a).need_re_update_view = a.need_re_update_view ∧
    (playbackUpdate env a).main_screen = a.main_screen := by
  unfold playbackUpdate
  rcases env.player_position with _ | p <;> rcases env.player_duration with _ | d <;> simp

/-- Helper: `init_after_login` lands on the Main screen with the dirty flag
forced and the main screen rebuilt from the favorite songlist. -/
lemma init_after_login_fields (env : Env) (a : App) :
    (init_after_login env a).current_screen = ScreenEnum.Main ∧
    (init_after_login env a).need_re_update_view = true ∧
    (init_after_login env a).main_screen =
      (match env.user_favorite_songlist with
       | some (name, pl) => MainScreen.new.update_playlist_model name pl
       | none => MainScreen.new) := by
  unfold init_after_login switch_screen
  rcases hl : env.user_favorite_songlist with _ | ⟨name, pl⟩ <;> simp [hl]

/-- C5: per tick, `update_model` recomputes the dirty flag from the active
screen: `Help` forces it false; `Login` with a logged-in session afterwards
rebuilds the Main sub-model from the favorite playlist, moves to `Main` and
forces the flag true regardless of the login screen's own redraw result;
otherwise the flag becomes the active screen's own update result. -/
theorem claim_C5 (env : Env) (app : App) :
    (app.current_screen = ScreenEnum.Help →
      update_model env app =
        Except.ok (playbackUpdate env { app with need_re_update_view := false })) ∧
    (∀ b ls, app.current_screen = ScreenEnum.Login →
      env.loginUpdate app.login_screen = Except.ok (b, ls) →
      (env.is_login = true →
        update_model env app =
          Except.ok (playbackUpdate env
            { init_after_login env { app with login_screen := ls } with
              need_re_update_view := true }) ∧
        ∀ app', update_model env app = Except.ok app' →
          app'.current_screen = ScreenEnum.Main ∧
          app'.need_re_update_view = true ∧
          app'.main_screen =
            (match env.user_favorite_songlist with
             | some (name, pl) => MainScreen.new.update_playlist_model name pl
             | none => MainScreen.new)) ∧
      (env.is_login = false →
        update_model env app =
          Except.ok (playbackUpdate env
            { app with need_re_update_view := b, login_screen := ls }))) ∧
    (∀ b ms, app.current_screen = ScreenEnum.Main →
      env.mainUpdate app.main_screen = Except.ok (b, ms) →
      update_model env app =
        Except.ok (playbackUpdate env
          { app with need_re_update_view := b, main_screen := ms })) := by
  refine ⟨?_, ?_, ?_⟩
  · intro hs
    simp [update_model, hs, Except.instMonad, Except.bind]
  · intro b ls hs henv
    constructor
    · intro hl
      have key : update_model env app =
          Except.ok (playbackUpdate env
            { init_after_login env { app with login_screen := ls } with
              need_re_update_view := true }) := by
        simp [update_model, update_login_model, hs, henv, hl, Except.instMonad, Except.bind]
      refine ⟨key, fun app' happ => ?_⟩
      rw [key] at happ
      obtain happ' := Except.ok.inj happ
      subst happ'
      obtain ⟨p1, p2, p3⟩ := playbackUpdate_fields env
        { init_after_login env { app with login_screen := ls } with
          need_re_update_view := true }
      obtain ⟨i1, i2, i3⟩ := init_after_login_fields env { app with login_screen := ls }
      refine ⟨?_, ?_, ?_⟩
      · rw [p1]; exact i1
      · rw [p2]
      · rw [p3]; exact i3
    · intro hl
      simp [update_model, update_login_model, hs, henv, hl, Except.instMonad, Except.bind]
  · intro b ms hs henv
    simp [update_model, hs, henv, Except.instMonad, Except.bind]

/-- Witness for C5 on the Main screen with a concrete environment whose
main-screen update reports no redraw needed. -/
theorem claim_C5_witness :
    App.new.current_screen = ScreenEnum.Main ∧
    defaultEnv.mainUpdate App.new.main_screen = Except.ok (false, App.new.main_screen) ∧
    update_model defaultEnv App.new =
      Except.ok (playbackUpdate defaultEnv
        { App.new with need_re_update_view := false, main_screen := App.new.main_screen }) :=
  ⟨rfl, rfl,
    (claim_C5 defaultEnv App.new).2.2 false App.new.main_screen rfl rfl⟩

/-- C9 counterexample: in a render pass with the dirty flag false, the
active screen's `draw` collaborator call still occurs (`App::draw` renders
the screen unconditionally inside the terminal closure), refuting the claim
that no screen drawing occurs when the flag is false. -/
theorem claim_C9_counterexample :
    ({ App.new with need_re_update_view := false } : App).need_re_update_view = false ∧
    RenderCall.screenDraw ScreenEnum.Main ∈
      (draw { App.new with need_re_update_view := false }).2 := by
  constructor
  · rfl
  · simp [draw, update_view, App.new]

/-- C9 (amended): when the dirty flag is false the active screen's view is
not recomputed (no `update_view` call on any screen) — though its `draw` is
still invoked every pass — and the command line and the playback gauge are
redrawn on every pass regardless of the dirty flag. -/
theorem claim_C9 (app : App) :
    (app.need_re_update_view = false →
      (∀ s, RenderCall.screenUpdateView s ∉ (update_view app).2) ∧
      (draw app).2 = [RenderCall.commandLineUpdateView,
        RenderCall.screenDraw app.current_screen, RenderCall.gaugeDraw,
        RenderCall.commandLineDraw]) ∧
    RenderCall.commandLineUpdateView ∈ (update_view app).2 ∧
    RenderCall.gaugeDraw ∈ (draw app).2 ∧
    RenderCall.commandLineDraw ∈ (draw app).2 := by
  refine ⟨fun hd => ⟨?_, ?_⟩, ?_, ?_, ?_⟩
  · intro s
    simp [update_view, hd]
  · simp [draw, update_view, hd]
  · simp [update_view]
  · simp [draw, update_view]
  · simp [draw, update_view]

/-- Witness for C9 (amended) at a concrete non-dirty state. -/
theorem claim_C9_witness :
    ({ App.new with need_re_update_view := false } : App).need_re_update_view = false ∧
    (draw { App.new with need_re_update_view := false }).2 =
      [RenderCall.commandLineUpdateView, RenderCall.screenDraw ScreenEnum.Main,
       RenderCall.gaugeDraw, RenderCall.commandLineDraw] :=
  ⟨rfl, ((claim_C9 { App.new with need_re_update_view := false }).1 rfl).2⟩

/-- Helper: dispatching `EnterCommand` switches to CommandEntry mode,
resets the command line and sets the prompt glyph. -/
lemma enter_command_step (env : Env) (app : App) (rest : List Command)
    (hq : app.command_queue = Command.EnterCommand :: rest) :
    handle_event env none app = Except.ok (true,
      { app with
        command_queue := rest,
        current_mode := AppMode.CommandEntry,
        command_line := (app.command_line.reset).set_prompt ":" }, []) := by
  unfold handle_event handle_key
  simp [execute_command, hq, switch_to_command_entry_mode]

/-- Helper: in CommandEntry mode with an empty queue, a key other than
Enter or Esc only edits the text buffer: the tick succeeds, keeps the mode
and keeps the queue empty. -/
lemma typing_step (env : Env) (ke : KeyEvent) (app : App)
    (hmode : app.current_mode = AppMode.CommandEntry)
    (hq : app.command_queue = [])
    (h1 : ke.code ≠ KeyCode.Enter) (h2 : ke.code ≠ KeyCode.Esc) :
    ∃ app', handle_event env (some ke) app = Except.ok (true, app', []) ∧
      app'.current_mode = AppMode.CommandEntry ∧ app'.command_queue = [] := by
  have hcmd : handle_key env (some ke) app = app ∨
      handle_key env (some ke) app =
        { app with
          command_line := { app.command_line with
            buffer := env.textarea_input ke app.command_line.buffer } } := by
    simp only [handle_key]
    by_cases hk : ke.kind = KeyEventKind.Press ∨ ke.kind = KeyEventKind.Repeat
    · rw [if_pos hk]
      cases hc : ke.code <;>
        first
          | exact absurd hc h1
          | exact absurd hc h2
          | (right; rw [hmode])
    · rw [if_neg hk]
      exact Or.inl rfl
  rcases hcmd with h | h
  · refine ⟨app, ?_, hmode, hq⟩
    unfold handle_event
    rw [h]
    simp [execute_command, hq]
  · refine ⟨{ app with
        command_line := { app.command_line with
          buffer := env.textarea_input ke app.command_line.buffer } }, ?_, ?_, ?_⟩
    · unfold handle_event
      rw [h]
      simp [execute_command, hq]
    · simpa using hmode
    · simpa using hq

/-- Helper: a run of Enter/Esc-free keys in CommandEntry mode with an empty
queue succeeds, stays in CommandEntry mode and keeps the queue empty. -/
lemma typing_run (env : Env) (keys : List KeyEvent) (app : App)
    (hmode : app.current_mode = AppMode.CommandEntry)
    (hq : app.command_queue = [])
    (hkeys : ∀ ke ∈ keys, ke.code ≠ KeyCode.Enter ∧ ke.code ≠ KeyCode.Esc) :
    ∃ app', runKeys env keys app = Except.ok app' ∧
      app'.current_mode = AppMode.CommandEntry ∧ app'.command_queue = [] := by
  induction keys generalizing app with
  | nil => exact ⟨app, rfl, hmode, hq⟩
  | cons ke ks ih =>
      obtain ⟨h1, h2⟩ := hkeys ke (List.mem_cons_self _ _)
      obtain ⟨app1, hrun1, hm1, hq1⟩ := typing_step env ke app hmode hq h1 h2
      obtain ⟨app2, hrun2, hm2, hq2⟩ :=
        ih app1 hm1 hq1 (fun ke' hke' => hkeys ke' (List.mem_cons_of_mem _ hke'))
      exact ⟨app2, by simp [runKeys, hrun1, hrun2], hm2, hq2⟩

/-- Helper: pressing Esc in CommandEntry mode with an empty queue resets
the command line and returns to Normal mode, enqueueing nothing. -/
lemma esc_step (env : Env) (app : App)
    (hmode : app.current_mode = AppMode.CommandEntry)
    (hq : app.command_queue = []) :
    handle_event env (some { kind := KeyEventKind.Press, code := KeyCode.Esc }) app =
      Except.ok (true,
        { app with
          current_mode := AppMode.Normal,
          command_line := app.command_line.reset }, []) := by
  unfold handle_event handle_key
  simp [hmode, back_to_normal_mode, execute_command, hq]

/-- C7 round trip: dispatching `EnterCommand` enters CommandEntry mode with
a reset buffer and prompt glyph, typing any Enter/Esc-free keys keeps the
queue empty, and pressing Esc returns to Normal mode with the buffer empty
and no command enqueued. -/
theorem claim_C7 (env : Env) (app : App) (keys : List KeyEvent)
    (hq : app.command_queue = [Command.EnterCommand])
    (hkeys : ∀ ke ∈ keys, ke.code ≠ KeyCode.Enter ∧ ke.code ≠ KeyCode.Esc) :
    ∃ app1 app2 app3,
      handle_event env none app = Except.ok (true, app1, []) ∧
      app1.current_mode = AppMode.CommandEntry ∧
      app1.command_line.buffer = "" ∧
      app1.command_line.prompt = ":" ∧
      app1.command_queue = [] ∧
      runKeys env keys app1 = Except.ok app2 ∧
      app2.current_mode = AppMode.CommandEntry ∧
      app2.command_queue = [] ∧
      handle_event env (some { kind := KeyEventKind.Press, code := KeyCode.Esc }) app2 =
        Except.ok (true, app3, []) ∧
      app3.current_mode = AppMode.Normal ∧
      app3.command_line.buffer = "" ∧
      app3.command_queue = [] := by
  have h1 := enter_command_step env app [] hq
  obtain ⟨app2, h2, hm2, hq2⟩ := typing_run env keys
    { app with
      command_queue := ([] : List Command),
      current_mode := AppMode.CommandEntry,
      command_line := (app.command_line.reset).set_prompt ":" } rfl rfl hkeys
  have h3 := esc_step env app2 hm2 hq2
  exact ⟨_, app2, _, h1, rfl, rfl, rfl, rfl, h2, hm2, hq2, h3, rfl, rfl, hq2⟩

/-- Witness for C7: concrete round trip typing the letter a between
entering and cancelling command mode. -/
theorem claim_C7_witness :
    ({ App.new with command_queue := [Command.EnterCommand] } : App).command_queue
        = [Command.EnterCommand] ∧
    (∀ ke ∈ [({ kind := KeyEventKind.Press, code := KeyCode.Char 'a' } : KeyEvent)],
      ke.code ≠ KeyCode.Enter ∧ ke.code ≠ KeyCode.Esc) ∧
    ∃ app1 app2 app3,
      handle_event defaultEnv none
          { App.new with command_queue := [Command.EnterCommand] } =
        Except.ok (true, app1, []) ∧
      app1.current_mode = AppMode.CommandEntry ∧
      app1.command_line.buffer = "" ∧
      app1.command_line.prompt = ":" ∧
      app1.command_queue = [] ∧
      runKeys defaultEnv [{ kind := KeyEventKind.Press, code := KeyCode.Char 'a' }] app1 =
        Except.ok app2 ∧
      app2.current_mode = AppMode.CommandEntry ∧
      app2.command_queue = [] ∧
      handle_event defaultEnv (some { kind := KeyEventKind.Press, code := KeyCode.Esc }) app2 =
        Except.ok (true, app3, []) ∧
      app3.current_mode = AppMode.Normal ∧
      app3.command_line.buffer = "" ∧
      app3.command_queue = [] :=
  ⟨rfl, by decide,
    claim_C7 defaultEnv { App.new with command_queue := [Command.EnterCommand] }
      [{ kind := KeyEventKind.Press, code := KeyCode.Char 'a' }] rfl (by decide)⟩

/-- Helper: `switch_screen` never touches the command queue. -/
lemma switch_screen_queue (env : Env) (s : ScreenEnum) (a : App) :
    (switch_screen env s a).command_queue = a.command_queue := by
  unfold switch_screen show_prompt
  split <;> rfl

/-- Helper: a successful `forward_to_screen` keeps the queue and records
exactly one screen call carrying the forwarded command. -/
lemma forward_fields (env : Env) (cmd : Command) (a : App) {b : Bool} {a' : App}
    {calls : List ExtCall}
    (h : forward_to_screen env cmd a = Except.ok (b, a', calls)) :
    a'.command_queue = a.command_queue ∧
    calls = [ExtCall.screenHandleEvent a.current_screen cmd] := by
  unfold forward_to_screen at h
  cases hs : a.current_screen <;> rw [hs] at h
  · cases henv : env.mainHandle cmd a.main_screen with
    | ok r =>
        obtain ⟨b1, ms⟩ := r
        rw [henv] at h
        simp [Except.instMonad, Except.bind] at h
        obtain ⟨hb, ha, hc⟩ := h
        rw [← ha, ← hc]
        exact ⟨rfl, rfl⟩
    | error e =>
        rw [henv] at h
        simp [Except.instMonad, Except.bind] at h
  · cases henv : env.loginHandle cmd a.login_screen with
    | ok r =>
        obtain ⟨b1, ls⟩ := r
        rw [henv] at h
        simp [Except.instMonad, Except.bind] at h
        obtain ⟨hb, ha, hc⟩ := h
        rw [← ha, ← hc]
        exact ⟨rfl, rfl⟩
    | error e =>
        rw [henv] at h
        simp [Except.instMonad, Except.bind] at h
  · cases henv : env.helpHandle cmd with
    | ok r =>
        rw [henv] at h
        simp [Except.instMonad, Except.bind] at h
        obtain ⟨hb, ha, hc⟩ := h
        rw [← ha, ← hc]
        exact ⟨rfl, rfl⟩
    | error e =>
        rw [henv] at h
        simp [Except.instMonad, Except.bind] at h

/-- Helper: a successful dispatch pops exactly the front of the queue, and
any screen call it makes carries the popped command. -/
lemma execute_queue_tail (env : Env) (a : App) (b : Bool) (a' : App) (calls : List ExtCall)
    (h : execute_command env a = Except.ok (b, a', calls)) :
    a'.command_queue = a.command_queue.tail ∧
    (∀ s c, ExtCall.screenHandleEvent s c ∈ calls → a.command_queue.head? = some c) := by
  cases hq : a.command_queue with
  | nil =>
      simp [execute_command, hq] at h
      obtain ⟨hb, ha, hc⟩ := h
      subst ha
      subst hc
      refine ⟨by simp [hq], ?_⟩
      intro s c hm
      simp at hm
  | cons cmd rest =>
      simp only [List.tail_cons, List.head?_cons]
      cases cmd <;> simp [execute_command, hq] at h
      case Quit | EnterCommand | TogglePlay | PrevTrack | NextTrack
        | ToggleRepeat | ToggleShuffle | GotoTop | GotoBottom | NewPlaylist
        | PlaylistAdd | SelectPlaylist | Nop =>
        obtain ⟨hb, ha, hc⟩ := h
        subst ha
        subst hc
        refine ⟨rfl, ?_⟩
        intro s c hm
        simp at hm
      case Logout =>
        obtain ⟨hb, ha, hc⟩ := h
        subst ha
        subst hc
        refine ⟨rfl, ?_⟩
        intro s c hm
        simp at hm
      case GotoScreen s =>
        obtain ⟨hb, ha, hc⟩ := h
        subst ha
        subst hc
        refine ⟨switch_screen_queue env s { a with command_queue := rest }, ?_⟩
        intro s c hm
        simp at hm
      case Down | Up | NextPanel | PrevPanel | Esc | Play =>
        obtain ⟨hcq, hcalls⟩ := forward_fields env _ { a with command_queue := rest } h
        refine ⟨hcq, ?_⟩
        intro s c hm
        rw [hcalls] at hm
        simp at hm
        rw [hm.2]

/-- Helper: with collaborators that never fail, a tick over a non-`Quit`
front command succeeds, continues, and pops exactly that command. -/
lemma tick_ok (env : Env) (henvok : EnvOk env) (a : App) (cmd : Command)
    (rest : List Command) (hq : a.command_queue = cmd :: rest)
    (hne : cmd ≠ Command.Quit) :
    ∃ a' calls, execute_command env a = Except.ok (true, a', calls) ∧
      a'.command_queue = rest := by
  obtain ⟨hm, hl, hh⟩ := henvok
  have hfwd : ∀ (x : App), x.command_queue = rest →
      ∃ a' calls, forward_to_screen env cmd x = Except.ok (true, a', calls) ∧
        a'.command_queue = rest := by
    intro x hx
    unfold forward_to_screen
    cases hs : x.current_screen
    · obtain ⟨r, hr⟩ := hm cmd x.main_screen
      obtain ⟨b1, ms⟩ := r
      rw [hr]
      exact ⟨_, _, rfl, hx⟩
    · obtain ⟨r, hr⟩ := hl cmd x.login_screen
      obtain ⟨b1, ls⟩ := r
      rw [hr]
      exact ⟨_, _, rfl, hx⟩
    · obtain ⟨r, hr⟩ := hh cmd
      rw [hr]
      exact ⟨_, _, rfl, hx⟩
  cases cmd
  case Quit => exact absurd rfl hne
  case GotoScreen s =>
      refine ⟨switch_screen env s { a with command_queue := rest }, [], ?_, ?_⟩
      · simp [execute_command, hq]
      · exact switch_screen_queue env s { a with command_queue := rest }
  case Down | Up | NextPanel | PrevPanel | Esc | Play =>
      obtain ⟨a', calls, hfr, hfq⟩ := hfwd { a with command_queue := rest } rfl
      exact ⟨a', calls, by simp [execute_command, hq]; exact hfr, hfq⟩
  case EnterCommand =>
      exact ⟨{ a with
                command_queue := rest,
                current_mode := AppMode.CommandEntry,
                command_line := (a.command_line.reset).set_prompt ":" }, [],
        by simp [execute_command, hq, switch_to_command_entry_mode], rfl⟩
  case Logout =>
      exact ⟨{ a with
                command_queue := rest,
                login_screen := LoginScreen.new },
        [ExtCall.apiLogout], by simp [execute_command, hq], rfl⟩
  all_goals
    exact ⟨{ a with command_queue := rest }, [], by simp [execute_command, hq], rfl⟩

/-- C3: each call to `handle_event` removes at most one command from the
front of the queue and any screen dispatch it performs is of exactly that
front command; iterated with no further input and with collaborators that
never fail, `n` ticks execute the first `n` queued commands in FIFO order,
leaving the queue's `n`-th tail. -/
theorem claim_C3 :
    (∀ (env : Env) (ev : Option KeyEvent) (app : App) (b : Bool) (app' : App)
        (calls : List ExtCall),
      handle_event env ev app = Except.ok (b, app', calls) →
      app'.command_queue = (handle_key env ev app).command_queue.tail ∧
      (∀ s c, ExtCall.screenHandleEvent s c ∈ calls →
        (handle_key env ev app).command_queue.head? = some c)) ∧
    (∀ (env : Env), EnvOk env → ∀ (n : Nat) (app : App),
      Command.Quit ∉ app.command_queue →
      ∃ app', runNoInput env n app = Except.ok app' ∧
        app'.command_queue = app.command_queue.drop n) := by
  constructor
  · intro env ev app b app' calls h
    exact execute_queue_tail env (handle_key env ev app) b app' calls h
  · intro env henvok n
    induction n with
    | zero => intro app hquit; exact ⟨app, rfl, rfl⟩
    | succ n ih =>
        intro app hquit
        cases hq : app.command_queue with
        | nil =>
            have h1 : handle_event env none app = Except.ok (true, app, []) := by
              unfold handle_event handle_key
              simp [execute_command, hq]
            obtain ⟨app', h2, h3⟩ := ih app hquit
            refine ⟨app', ?_, ?_⟩
            · simp [runNoInput, h1, h2]
            · rw [h3, hq]
              simp
        | cons cmd rest =>
            have hne : cmd ≠ Command.Quit := by
              rintro rfl
              exact hquit (hq ▸ List.mem_cons_self _ _)
            have hquit' : Command.Quit ∉ rest := by
              intro hmem
              exact hquit (hq ▸ List.mem_cons_of_mem _ hmem)
            obtain ⟨app1, calls, h1, hq1⟩ := tick_ok env henvok app cmd rest hq hne
            have h1' : handle_event env none app = Except.ok (true, app1, calls) := h1
            obtain ⟨app2, h2, hq2⟩ := ih app1 (by rw [hq1]; exact hquit')
            refine ⟨app2, ?_, ?_⟩
            · simp [runNoInput, h1', h2]
            · rw [hq2, hq1]
              simp

/-- Witness for C3: three queued commands with no further input drain in
order under an environment whose collaborators always succeed. -/
theorem claim_C3_witness :
    EnvOk defaultEnv ∧
    Command.Quit ∉
      ({ App.new with
        command_queue := [Command.Nop, Command.Down, Command.Logout] } : App).command_queue ∧
    ∃ app', runNoInput defaultEnv 2
        { App.new with command_queue := [Command.Nop, Command.Down, Command.Logout] } =
          Except.ok app' ∧
      app'.command_queue =
        ({ App.new with
          command_queue := [Command.Nop, Command.Down, Command.Logout] } : App).command_queue.drop 2 :=
  ⟨⟨fun c ms => ⟨(false, ms), rfl⟩, fun c ls => ⟨(false, ls), rfl⟩, fun c => ⟨false, rfl⟩⟩,
    by decide,
    claim_C3.2 defaultEnv
      ⟨fun c ms => ⟨(false, ms), rfl⟩, fun c ls => ⟨(false, ls), rfl⟩, fun c => ⟨false, rfl⟩⟩
      2 { App.new with command_queue := [Command.Nop, Command.Down, Command.Logout] }
      (by decide)⟩

end NcmTui
